import Mathlib

/-!
Verification development for the track-based alignment engine of this
repository.  The two primary source files are embedded:

* `Core/include/Acts/Alignment/detail/AlignmentEngine.hpp`
  (`Acts::detail::TrackAlignmentState`, `Acts::detail::trackAlignmentState`);
* `Examples/Algorithms/Alignment/include/ACTFW/Alignment/Alignment.hpp`
  (`FW::Alignment`: `evaluateTrackAlignmentState`,
  `updateAlignmentParameters`, `align`).

Scalars (C++ `double`) are modelled by `ℚ`.  Eigen dynamically sized
matrices are modelled by `DynMatrix`/`DynVector`: an explicit row/column
count together with a total entry function, so that `.block`/`.segment`
writes and reads are index arithmetic exactly as in Eigen.  The external
track fitter, the geometry layer (surface transforms, Euler-angle
composition) and the transform-update callback are collaborators outside
the two files above; they enter the model as function parameters.
-/

namespace ActsAlign

/-- Number of bound track parameters per state, `Acts::eBoundParametersSize`. -/
def eBoundParametersSize : ℕ := 6

/-- Number of alignment parameters per alignable surface,
`Acts::eAlignmentParametersSize` (3 translation + 3 rotation). -/
def eAlignmentParametersSize : ℕ := 6

/-- Dynamically sized matrix (Eigen `ActsMatrixX`): a row count, a column
count, and a total entry function. Entries outside the `rows × cols`
range are bookkeeping only and never read by well-formed source code. -/
structure DynMatrix where
  rows : ℕ
  cols : ℕ
  entry : ℕ → ℕ → ℚ

/-- Dynamically sized vector (Eigen `ActsVectorX`). -/
structure DynVector where
  size : ℕ
  entry : ℕ → ℚ

/-- Eigen `MatrixX::Zero(r, c)`. -/
def DynMatrix.zero (r c : ℕ) : DynMatrix := ⟨r, c, fun _ _ => 0⟩

/-- Eigen `VectorX::Zero(n)`. -/
def DynVector.zero (n : ℕ) : DynVector := ⟨n, fun _ => 0⟩

instance : Inhabited DynMatrix := ⟨DynMatrix.zero 0 0⟩
instance : Inhabited DynVector := ⟨DynVector.zero 0⟩

/-- Eigen block write `A.block(r0, c0, nr, nc) = B`. -/
def DynMatrix.setBlock (A : DynMatrix) (r0 c0 nr nc : ℕ) (B : ℕ → ℕ → ℚ) :
    DynMatrix :=
  ⟨A.rows, A.cols, fun i j =>
    if r0 ≤ i ∧ i < r0 + nr ∧ c0 ≤ j ∧ j < c0 + nc then B (i - r0) (j - c0)
    else A.entry i j⟩

/-- Eigen block accumulate `A.block(r0, c0, nr, nc) += B`. -/
def DynMatrix.addBlock (A : DynMatrix) (r0 c0 nr nc : ℕ) (B : ℕ → ℕ → ℚ) :
    DynMatrix :=
  ⟨A.rows, A.cols, fun i j =>
    if r0 ≤ i ∧ i < r0 + nr ∧ c0 ≤ j ∧ j < c0 + nc then
      A.entry i j + B (i - r0) (j - c0)
    else A.entry i j⟩

/-- Eigen segment write `v.segment(i0, len) = w`. -/
def DynVector.setSegment (v : DynVector) (i0 len : ℕ) (w : ℕ → ℚ) :
    DynVector :=
  ⟨v.size, fun i => if i0 ≤ i ∧ i < i0 + len then w (i - i0) else v.entry i⟩

/-- Eigen segment accumulate `v.segment(i0, len) += w`. -/
def DynVector.addSegment (v : DynVector) (i0 len : ℕ) (w : ℕ → ℚ) :
    DynVector :=
  ⟨v.size, fun i =>
    if i0 ≤ i ∧ i < i0 + len then v.entry i + w (i - i0) else v.entry i⟩

/-- Matrix product; the contraction length is the column count of the left
factor, as for Eigen dynamic matrices. -/
def DynMatrix.mul (A B : DynMatrix) : DynMatrix :=
  ⟨A.rows, B.cols, fun i j => ∑ t in Finset.range A.cols, A.entry i t * B.entry t j⟩

/-- Matrix-vector product. -/
def DynMatrix.mulVec (A : DynMatrix) (v : DynVector) : DynVector :=
  ⟨A.rows, fun i => ∑ t in Finset.range A.cols, A.entry i t * v.entry t⟩

/-- Matrix transpose. -/
def DynMatrix.transpose (A : DynMatrix) : DynMatrix :=
  ⟨A.cols, A.rows, fun i j => A.entry j i⟩

/-- Matrix difference (entrywise, shape of the left operand). -/
def DynMatrix.sub (A B : DynMatrix) : DynMatrix :=
  ⟨A.rows, A.cols, fun i j => A.entry i j - B.entry i j⟩

/-- Scalar multiple of a matrix. -/
def DynMatrix.smul (a : ℚ) (A : DynMatrix) : DynMatrix :=
  ⟨A.rows, A.cols, fun i j => a * A.entry i j⟩

/-- Scalar multiple of a vector. -/
def DynVector.smul (a : ℚ) (v : DynVector) : DynVector :=
  ⟨v.size, fun i => a * v.entry i⟩

/-- Entrywise negation of a vector. -/
def DynVector.neg (v : DynVector) : DynVector := ⟨v.size, fun i => -v.entry i⟩

/-- Dot product; the contraction length is the size of the left operand. -/
def DynVector.dot (v w : DynVector) : ℚ :=
  ∑ t in Finset.range v.size, v.entry t * w.entry t

/-- Determinant of the leading `n × n` block of an entry function, by
Laplace expansion along the first column.  This executable determinant is
used to model Eigen `.inverse()`; it is proved equal to `Matrix.det`
below. -/
def detD : (n : ℕ) → (ℕ → ℕ → ℚ) → ℚ
  | 0, _ => 1
  | n+1, A => ∑ i in Finset.range (n+1),
      (-1 : ℚ)^i * A i 0 * detD n (fun r c => A (if r < i then r else r+1) (c+1))

/-- Entry function with row `r` replaced by the standard basis row vector
with a one in column `c`. -/
def updRowD (A : ℕ → ℕ → ℚ) (r c : ℕ) : ℕ → ℕ → ℚ :=
  fun i j => if i = r then (if j = c then 1 else 0) else A i j

/-- Adjugate of the leading `n × n` block, via the cofactor formula
`adj(A) i j = det (A with row j replaced by the i-th basis row)`. -/
def adjD (n : ℕ) (A : ℕ → ℕ → ℚ) : ℕ → ℕ → ℚ :=
  fun i j => detD n (updRowD A j i)

/-- Eigen `.inverse()` of a square dynamic matrix, modelled by the exact
rational formula `det⁻¹ ⬝ adjugate` on the leading `rows × rows` block.
For an invertible matrix this is the true inverse; for a singular matrix
Eigen produces non-finite garbage (`NaN`/`inf`), which has no rational
counterpart — here the formula degenerates to the zero matrix
(division by a zero determinant). -/
def DynMatrix.inv (A : DynMatrix) : DynMatrix :=
  ⟨A.rows, A.cols, fun i j =>
    if i < A.rows ∧ j < A.rows then
      (1 / detD A.rows A.entry) * adjD A.rows A.entry i j
    else 0⟩

/-- Square `Fin`-indexed view of the leading `n × n` block of an entry
function, used to relate the executable operations to Mathlib. -/
def toFinM (n : ℕ) (A : ℕ → ℕ → ℚ) : Matrix (Fin n) (Fin n) ℚ :=
  Matrix.of fun i j => A i.val j.val

/-- Model of one track state of an `Acts::MultiTrajectory`.  Surfaces are
identified by a natural number standing for the `const Surface*` pointer
value; the per-state payloads (calibrated measurement, its covariance,
the projector, the filtered parameters) are entry functions produced by
the external fitter. -/
structure TrackState where
  index : ℕ
  hasSmoothed : Bool
  isMeasurement : Bool
  surfaceId : ℕ
  calibratedSize : ℕ
  calibratedCovariance : ℕ → ℕ → ℚ
  projector : ℕ → ℕ → ℚ
  calibrated : ℕ → ℚ
  filtered : ℕ → ℚ
deriving Inhabited

/-- `multiTraj.getTrackState(i)`: the state of the trajectory with the
given index. -/
def getTrackState (multiTraj : List TrackState) (i : ℕ) : TrackState :=
  (multiTraj.find? fun ts => ts.index == i).getD default

/-- Write `m[k].first = v` on an `unordered_map` keyed by surface whose
values are `std::pair<size_t, size_t>`: `operator[]` value-initializes a
missing entry (second component `0`) and the first component is then
assigned. -/
def setFirst (m : List (ℕ × ℕ × ℕ)) (k v : ℕ) : List (ℕ × ℕ × ℕ) :=
  if m.any (fun e => e.1 == k) then
    m.map (fun e => if e.1 == k then (e.1, v, e.2.2) else e)
  else m ++ [(k, v, 0)]

/-- Write `m.at(k).second = v` on the same map (the key is present when
the source executes this). -/
def setSecond (m : List (ℕ × ℕ × ℕ)) (k v : ℕ) : List (ℕ × ℕ × ℕ) :=
  m.map (fun e => if e.1 == k then (e.1, e.2.1, v) else e)

/-- `Acts::detail::TrackAlignmentState` (AlignmentEngine.hpp).  The field
defaults mirror the default-constructed C++ struct: empty dynamic
matrices, zero scalars, empty surface map.  `alignedSurfaces` holds
`(surface, global index, index among the alignable surfaces of this track)`
triples. -/
structure TrackAlignmentState where
  measurementCovariance : DynMatrix := DynMatrix.zero 0 0
  trackParametersCovariance : DynMatrix := DynMatrix.zero 0 0
  projectionMatrix : DynMatrix := DynMatrix.zero 0 0
  residual : DynVector := DynVector.zero 0
  residualCovariance : DynMatrix := DynMatrix.zero 0 0
  chi2 : ℚ := 0
  alignmentToResidualDerivative : DynMatrix := DynMatrix.zero 0 0
  alignmentToChi2Derivative : DynVector := DynVector.zero 0
  alignmentToChi2SecondDerivative : DynMatrix := DynMatrix.zero 0 0
  alignedSurfaces : List (ℕ × ℕ × ℕ) := []
  measurementDim : ℕ := 0
  trackParametersDim : ℕ := 0
  alignmentDof : ℕ := 0

/-- Accumulator of the `visitBackwards` pass of `trackAlignmentState`:
the `(state index, isAlignable)` list, the smoothed-state and
alignable-surface counters, and the two fields of the alignment state
that the visitor lambda mutates. -/
structure VisitAccum where
  measurementStates : List (ℕ × Bool)
  nSmoothedStates : ℕ
  nAlignSurfaces : ℕ
  alignedSurfaces : List (ℕ × ℕ × ℕ)
  measurementDim : ℕ

/-- Body of the `visitBackwards` lambda of `trackAlignmentState`
(AlignmentEngine.hpp lines 112-138).  Note `isAlignable` is initialized
to `false` and — as in the source — never set, in particular not inside
the registry-hit branch. -/
def visitStep (idxedAlignSurfaces : List (ℕ × ℕ)) (acc : VisitAccum)
    (ts : TrackState) : VisitAccum :=
  let acc := if ts.hasSmoothed then
      { acc with nSmoothedStates := acc.nSmoothedStates + 1 } else acc
  if !ts.isMeasurement then acc
  else
    let isAlignable := false
    let acc := match idxedAlignSurfaces.lookup ts.surfaceId with
      | some idx =>
        { acc with
          alignedSurfaces := setFirst acc.alignedSurfaces ts.surfaceId idx,
          nAlignSurfaces := acc.nAlignSurfaces + 1 }
      | none => acc
    { acc with
      measurementStates := acc.measurementStates ++ [(ts.index, isAlignable)],
      measurementDim := acc.measurementDim + ts.calibratedSize }

/-- The whole `visitBackwards` traversal; `multiTraj` lists the visited
states in visiting order (backwards from the entry index). -/
def visitAll (multiTraj : List TrackState)
    (idxedAlignSurfaces : List (ℕ × ℕ)) : VisitAccum :=
  multiTraj.foldl (visitStep idxedAlignSurfaces) ⟨[], 0, 0, [], 0⟩

/-- Loop state of the reverse-order fill loop of `trackAlignmentState`
(AlignmentEngine.hpp lines 180-234). -/
structure FillAccum where
  iMeasurement : ℕ
  iParams : ℕ
  iSurface : ℕ
  measurementCovariance : DynMatrix
  projectionMatrix : DynMatrix
  residual : DynVector
  trackParametersCovariance : DynMatrix
  alignedSurfaces : List (ℕ × ℕ × ℕ)

/-- Inner loop (e) of the fill loop: for every measurement state (column)
copy the `6 × 6` block of the source global covariance at the row/column
offsets of the two states into the target covariance at
`(iParams, trackParametersDim - (iColState+1) * eBoundParametersSize)`. -/
def fillCovRow (sourceTrackParamsCov : ℕ → ℕ → ℚ) (stateRowIndices : ℕ → ℕ)
    (measurementStates : List (ℕ × Bool)) (trackParametersDim : ℕ)
    (rowStateIndex iParams : ℕ) (tpCov : DynMatrix) : DynMatrix :=
  (List.range measurementStates.length).foldl (fun M iColState =>
    let colStateIndex := (measurementStates.getD iColState (0, false)).1
    let iCol := trackParametersDim - (iColState + 1) * eBoundParametersSize
    M.setBlock iParams iCol eBoundParametersSize eBoundParametersSize
      (fun r c => sourceTrackParamsCov (stateRowIndices rowStateIndex + r)
        (stateRowIndices colStateIndex + c))) tpCov

/-- Body of the fill loop of `trackAlignmentState` for one entry
`(rowStateIndex, isAlignable)` of `measurementStates`: steps (a)-(e) of
AlignmentEngine.hpp lines 185-234. -/
def fillStep (multiTraj : List TrackState)
    (sourceTrackParamsCov : ℕ → ℕ → ℚ) (stateRowIndices : ℕ → ℕ)
    (measurementStates : List (ℕ × Bool)) (trackParametersDim : ℕ)
    (acc : FillAccum) (ms : ℕ × Bool) : FillAccum :=
  let state := getTrackState multiTraj ms.1
  let measdim := state.calibratedSize
  let iMeasurement := acc.iMeasurement - measdim
  let iParams := acc.iParams - eBoundParametersSize
  let measurementCovariance := acc.measurementCovariance.setBlock
      iMeasurement iMeasurement measdim measdim state.calibratedCovariance
  let projectionMatrix := acc.projectionMatrix.setBlock
      iMeasurement iParams measdim eBoundParametersSize state.projector
  let residual := acc.residual.setSegment iMeasurement measdim
      (fun r => state.calibrated r -
        ∑ c in Finset.range eBoundParametersSize,
          state.projector r c * state.filtered c)
  let iSurface := if ms.2 then acc.iSurface - 1 else acc.iSurface
  let alignedSurfaces := if ms.2 then
      setSecond acc.alignedSurfaces state.surfaceId (acc.iSurface - 1)
    else acc.alignedSurfaces
  let trackParametersCovariance := fillCovRow sourceTrackParamsCov
      stateRowIndices measurementStates trackParametersDim ms.1 iParams
      acc.trackParametersCovariance
  ⟨iMeasurement, iParams, iSurface, measurementCovariance, projectionMatrix,
    residual, trackParametersCovariance, alignedSurfaces⟩

/-- `Acts::detail::trackAlignmentState` (AlignmentEngine.hpp lines
93-266): visit the trajectory backwards, return a default state when no
alignable surface was hit, otherwise allocate the block matrices, fill
them in reverse order, and compute the chi2 and its first and second
alignment derivatives by the chain-rule formulas. -/
def trackAlignmentState (multiTraj : List TrackState)
    (sourceTrackParamsCov : ℕ → ℕ → ℚ) (stateRowIndices : ℕ → ℕ)
    (idxedAlignSurfaces : List (ℕ × ℕ)) : TrackAlignmentState :=
  let acc := visitAll multiTraj idxedAlignSurfaces
  if acc.nAlignSurfaces = 0 then
    { measurementDim := acc.measurementDim,
      alignedSurfaces := acc.alignedSurfaces }
  else
    let alignmentDof := eAlignmentParametersSize * acc.nAlignSurfaces
    let trackParametersDim := eBoundParametersSize * acc.measurementStates.length
    let fill := acc.measurementStates.foldl
        (fillStep multiTraj sourceTrackParamsCov stateRowIndices
          acc.measurementStates trackParametersDim)
        ⟨acc.measurementDim, trackParametersDim, acc.nAlignSurfaces,
          DynMatrix.zero acc.measurementDim acc.measurementDim,
          DynMatrix.zero acc.measurementDim trackParametersDim,
          DynVector.zero acc.measurementDim,
          DynMatrix.zero trackParametersDim trackParametersDim,
          acc.alignedSurfaces⟩
    let alignmentToResidualDerivative :=
        DynMatrix.zero acc.measurementDim alignmentDof
    let measCovInverse := fill.measurementCovariance.inv
    let chi2 := fill.residual.dot (measCovInverse.mulVec fill.residual)
    let residualCovariance := fill.measurementCovariance.sub
        ((fill.projectionMatrix.mul fill.trackParametersCovariance).mul
          fill.projectionMatrix.transpose)
    let alignmentToChi2Derivative := DynVector.smul 2
        (((((alignmentToResidualDerivative.transpose.mul measCovInverse).mul
          residualCovariance).mul measCovInverse).mulVec fill.residual))
    let alignmentToChi2SecondDerivative := DynMatrix.smul 2
        (((((alignmentToResidualDerivative.transpose.mul measCovInverse).mul
          residualCovariance).mul measCovInverse).mul
          alignmentToResidualDerivative))
    { measurementCovariance := fill.measurementCovariance,
      trackParametersCovariance := fill.trackParametersCovariance,
      projectionMatrix := fill.projectionMatrix,
      residual := fill.residual,
      residualCovariance := residualCovariance,
      chi2 := chi2,
      alignmentToResidualDerivative := alignmentToResidualDerivative,
      alignmentToChi2Derivative := alignmentToChi2Derivative,
      alignmentToChi2SecondDerivative := alignmentToChi2SecondDerivative,
      alignedSurfaces := fill.alignedSurfaces,
      measurementDim := acc.measurementDim,
      trackParametersDim := trackParametersDim,
      alignmentDof := alignmentDof }

/-- `FW::AlignmentError` together with the propagated fitter error: a
track evaluation fails either because the upstream Kalman fit failed
(`fitFailure`, standing for whatever error the fitter returned) or
because the track has no alignment degree of freedom. -/
inductive TrackEvalError
  | fitFailure
  | noAlignmentDofOnTrack
deriving DecidableEq, Repr

/-- Fatal errors of the alignment run (`FW::AlignmentError` values used
by `updateAlignmentParameters` and `align`). -/
inductive AlignmentError
  | alignmentParametersUpdateFailure
  | convergeFailure
deriving DecidableEq, Repr

/-- Output of a successful external Kalman fit of one trajectory, as
consumed by `evaluateTrackAlignmentState`: the fitted states (in the
order `visitBackwards` visits them from `trackTip`) and the global
track-parameters covariance from
`Acts::detail::globalTrackParametersCovariance` (the matrix together
with the starting row/column of each smoothed state). -/
structure FitOutput where
  fittedStates : List TrackState
  sourceTrackParamsCov : ℕ → ℕ → ℚ
  stateRowIndices : ℕ → ℕ

/-- `FW::Alignment::evaluateTrackAlignmentState` (Alignment.hpp lines
161-189).  The external fitter call `m_fitter.fit(...)` is modelled by
the precomputed `fitResult` argument: `none` is a failed fit (the error
is propagated), `some` carries the fit output.  A computed state with
`alignmentDof == 0` is reported as `NoAlignmentDofOnTrack`. -/
def evaluateTrackAlignmentState (fitResult : Option FitOutput)
    (idxedAlignSurfaces : List (ℕ × ℕ)) :
    Except TrackEvalError TrackAlignmentState :=
  match fitResult with
  | none => .error .fitFailure
  | some fitOutput =>
    let alignState := trackAlignmentState fitOutput.fittedStates
        fitOutput.sourceTrackParamsCov fitOutput.stateRowIndices
        idxedAlignSurfaces
    if alignState.alignmentDof = 0 then .error .noAlignmentDofOnTrack
    else .ok alignState

/-- Registry construction of `updateAlignmentParameters` (Alignment.hpp
lines 224-229): `idxedAlignSurfaces.emplace(surface of element i, i)` for
each alignable detector element; `emplace` does not overwrite an existing
key. -/
def indexAlignSurfaces (alignedDetElements : List ℕ) : List (ℕ × ℕ) :=
  (List.range alignedDetElements.length).foldl (fun m i =>
    let k := alignedDetElements.getD i 0
    if (m.lookup k).isSome then m else m ++ [(k, i)]) []

/-- Per-iteration accumulator of `updateAlignmentParameters`: the summed
chi2 derivative and second derivative over all tracks, and the running
`chi2`, `measurementDim` and `sumChi2ONdf` scalars. -/
structure AccumState where
  sumChi2Derivative : DynVector
  sumChi2SecondDerivative : DynMatrix
  chi2 : ℚ
  measurementDim : ℕ
  sumChi2ONdf : ℚ

/-- Zero-initialized accumulator for a given total alignment DOF
(Alignment.hpp lines 234-248). -/
def initAccum (alignmentDof : ℕ) : AccumState :=
  ⟨DynVector.zero alignmentDof, DynMatrix.zero alignmentDof alignmentDof,
    0, 0, 0⟩

/-- One turn of the track loop of `updateAlignmentParameters`
(Alignment.hpp lines 249-290): evaluate the track; on failure `continue`
(the accumulator is unchanged); on success add the per-surface segments
of the chi2 derivative of the track and the per-surface-pair blocks of its
second derivative into the global sums, and add `chi2`,
`measurementDim` and `chi2 / measurementDim`. -/
def accumulateTrack (idxedAlignSurfaces : List (ℕ × ℕ))
    (acc : AccumState) (fitResult : Option FitOutput) : AccumState :=
  match evaluateTrackAlignmentState fitResult idxedAlignSurfaces with
  | .error _ => acc
  | .ok alignState =>
    let sumChi2Derivative := alignState.alignedSurfaces.foldl (fun g rows =>
        g.addSegment (rows.2.1 * eAlignmentParametersSize)
          eAlignmentParametersSize
          (fun k => alignState.alignmentToChi2Derivative.entry
            (rows.2.2 * eAlignmentParametersSize + k)))
      acc.sumChi2Derivative
    let sumChi2SecondDerivative := alignState.alignedSurfaces.foldl
      (fun h rows => alignState.alignedSurfaces.foldl (fun h cols =>
          h.addBlock (rows.2.1 * eAlignmentParametersSize)
            (cols.2.1 * eAlignmentParametersSize)
            eAlignmentParametersSize eAlignmentParametersSize
            (fun r c => alignState.alignmentToChi2SecondDerivative.entry
              (rows.2.2 * eAlignmentParametersSize + r)
              (cols.2.2 * eAlignmentParametersSize + c))) h)
      acc.sumChi2SecondDerivative
    ⟨sumChi2Derivative, sumChi2SecondDerivative,
      acc.chi2 + alignState.chi2,
      acc.measurementDim + alignState.measurementDim,
      acc.sumChi2ONdf + alignState.chi2 / (alignState.measurementDim : ℚ)⟩

/-- The whole track loop of `updateAlignmentParameters` over the
trajectory collection (each entry modelled by its fit outcome). -/
def accumulateTracks (idxedAlignSurfaces : List (ℕ × ℕ))
    (alignmentDof : ℕ) (trajectoryCollection : List (Option FitOutput)) :
    AccumState :=
  trajectoryCollection.foldl (accumulateTrack idxedAlignSurfaces)
    (initAccum alignmentDof)

/-- Computation `alignResult.averageChi2ONdf = sumChi2ONdf /
alignResult.numTracks` (Alignment.hpp line 291); `numTracks` was set to
the size of the input trajectory collection, with no guard against an
empty collection (in C++ doubles, an empty collection produces the
indeterminate `0.0 / 0.0`). -/
def averageChi2ONdfOf (acc : AccumState) (numTracks : ℕ) : ℚ :=
  acc.sumChi2ONdf / (numTracks : ℚ)

/-- Solve step `deltaAlignmentParameters =
-sumChi2SecondDerivative.fullPivLu().solve(sumChi2Derivative)`
(Alignment.hpp lines 313-315).  The LU solve is modelled by
multiplication with the rational inverse, which is exact whenever the
second-derivative matrix is invertible. -/
def solveDelta (sumChi2SecondDerivative : DynMatrix)
    (sumChi2Derivative : DynVector) : DynVector :=
  (sumChi2SecondDerivative.inv.mulVec sumChi2Derivative).neg

/-- Covariance step `alignmentCovariance = 2 *
sumChi2SecondDerivativeInverse` (Alignment.hpp line 319). -/
def covarianceOf (sumChi2SecondDerivative : DynMatrix) : DynMatrix :=
  DynMatrix.smul 2 sumChi2SecondDerivative.inv

/-- Chi2-change step `deltaChi2 = 0.5 * sumChi2Derivative.transpose() *
deltaAlignmentParameters` (Alignment.hpp lines 321-322). -/
def deltaChi2Of (sumChi2SecondDerivative : DynMatrix)
    (sumChi2Derivative : DynVector) : ℚ :=
  (1/2 : ℚ) * sumChi2Derivative.dot
    (solveDelta sumChi2SecondDerivative sumChi2Derivative)

/-- Transform-update loop of `updateAlignmentParameters` (Alignment.hpp
lines 326-373), iterating over the indexed alignable surfaces.  The
geometric construction of the proposed new transform — decomposing the
old transform into a translation and Z-Y-X Euler angles, adding the
delta segment, and recomposing (steps (1)-(3), external geometry layer,
real-valued trigonometry) — is abstracted into `newTransformOf`, a
function of the element index (closing over the solved delta).  Returns
the list of element indices on which an update was attempted, in order,
together with the result: on the first updater failure the loop returns
`AlignmentParametersUpdateFailure` immediately. -/
def updateTransforms {τ : Type} (alignedTransformUpdater : ℕ → τ → Bool)
    (newTransformOf : ℕ → τ) :
    List (ℕ × ℕ) → List ℕ × Except AlignmentError Unit
  | [] => ([], .ok ())
  | e :: rest =>
    if alignedTransformUpdater e.2 (newTransformOf e.2) then
      let r := updateTransforms alignedTransformUpdater newTransformOf rest
      (e.2 :: r.1, r.2)
    else ([e.2], .error .alignmentParametersUpdateFailure)

/-- Mutable fields of `FW::AlignmentResult` that one call of
`updateAlignmentParameters` (Alignment.hpp lines 209-376) produces. -/
structure AlignmentResultM where
  deltaAlignmentParameters : DynVector
  alignmentCovariance : DynMatrix
  averageChi2ONdf : ℚ
  deltaChi2 : ℚ
  chi2 : ℚ
  measurementDim : ℕ
  alignmentDof : ℕ
  numTracks : ℕ

/-- `FW::Alignment::updateAlignmentParameters`.  Inputs: the trajectory
collection abstracted by the per-track fit outcomes, the alignable
detector elements abstracted by their surface identifiers, the external
transform-update callback, the external geometric transform composition
`composeTransform` (element index and its 6-entry delta segment to the
proposed transform), and `hasNaNCheck` standing for the floating-point
test `sumChi2SecondDerivativeInverse.hasNaN()` — a predicate on IEEE
numbers with no rational counterpart, hence a parameter.  Its result is
bound and logged only: the early return on NaN is commented out in the
source (Alignment.hpp lines 302-305). -/
def updateAlignmentParameters {τ : Type}
    (trajectoryCollection : List (Option FitOutput))
    (alignedDetElements : List ℕ)
    (alignedTransformUpdater : ℕ → τ → Bool)
    (composeTransform : ℕ → (ℕ → ℚ) → τ)
    (hasNaNCheck : DynMatrix → Bool) :
    Except AlignmentError AlignmentResultM :=
  let idxedAlignSurfaces := indexAlignSurfaces alignedDetElements
  let alignmentDof := idxedAlignSurfaces.length * eAlignmentParametersSize
  let acc := accumulateTracks idxedAlignSurfaces alignmentDof
      trajectoryCollection
  let numTracks := trajectoryCollection.length
  let averageChi2ONdf := averageChi2ONdfOf acc numTracks
  let sumChi2SecondDerivativeInverse := acc.sumChi2SecondDerivative.inv
  let _nanWarningOnly := hasNaNCheck sumChi2SecondDerivativeInverse
  let deltaAlignmentParameters := solveDelta acc.sumChi2SecondDerivative
      acc.sumChi2Derivative
  let alignmentCovariance := covarianceOf acc.sumChi2SecondDerivative
  let deltaChi2 := deltaChi2Of acc.sumChi2SecondDerivative
      acc.sumChi2Derivative
  let upd := updateTransforms alignedTransformUpdater
      (fun index => composeTransform index
        (fun k => deltaAlignmentParameters.entry
          (eAlignmentParametersSize * index + k)))
      idxedAlignSurfaces
  match upd.2 with
  | .error e => .error e
  | .ok _ => .ok
    { deltaAlignmentParameters := deltaAlignmentParameters,
      alignmentCovariance := alignmentCovariance,
      averageChi2ONdf := averageChi2ONdf,
      deltaChi2 := deltaChi2,
      chi2 := acc.chi2,
      measurementDim := acc.measurementDim,
      alignmentDof := alignmentDof,
      numTracks := numTracks }

/-- Iteration loop of `FW::Alignment::align` (Alignment.hpp lines
401-457).  Because each iteration refits against the geometry mutated by
the previous one, the outcome of the `updateAlignmentParameters` call of iteration `i` is abstracted into
`iterationOutcome i`: either the fatal error it returned or the
`averageChi2ONdf` it produced.  The first argument is the remaining
iteration budget (`maxIterations - iIter`); `recentChi2ONdf` is the
`std::queue<double>` of recent average chi2/ndf values.  Returns `.ok
true` on convergence, `.ok false` when the iteration budget is exhausted
(the source marks `ConvergeFailure` inside the still-returned result),
and `.error e` when an iteration aborts fatally. -/
def alignLoop (iterationOutcome : ℕ → Except AlignmentError ℚ)
    (averageChi2ONdfCutOff : ℚ) (windowSize : ℕ) (deltaCutOff : ℚ) :
    ℕ → ℕ → List ℚ → Except AlignmentError Bool
  | 0, _, _ => .ok false
  | fuel+1, iIter, recentChi2ONdf =>
    match iterationOutcome iIter with
    | .error e => .error e
    | .ok averageChi2ONdf =>
      if averageChi2ONdf ≤ averageChi2ONdfCutOff then .ok true
      else if windowSize ≤ recentChi2ONdf.length then
        if |recentChi2ONdf.headI - averageChi2ONdf| ≤ deltaCutOff then
          .ok true
        else
          alignLoop iterationOutcome averageChi2ONdfCutOff windowSize
            deltaCutOff fuel (iIter+1)
            (recentChi2ONdf.tail ++ [averageChi2ONdf])
      else
        alignLoop iterationOutcome averageChi2ONdfCutOff windowSize
          deltaCutOff fuel (iIter+1) (recentChi2ONdf ++ [averageChi2ONdf])

/-- `FW::Alignment::align`: run the iteration loop from iteration `0`
with an empty recent-chi2 window, for at most `maxIterations`
iterations. -/
def align (iterationOutcome : ℕ → Except AlignmentError ℚ)
    (averageChi2ONdfCutOff : ℚ) (windowSize : ℕ) (deltaCutOff : ℚ)
    (maxIterations : ℕ) : Except AlignmentError Bool :=
  alignLoop iterationOutcome averageChi2ONdfCutOff windowSize deltaCutOff
    maxIterations 0 []

/-! Helper lemmas. -/

/-- Number of measurement states of a trajectory whose reference surface
is in the alignment registry.  `nAlignSurfaces` of the source counts one
per such state (not one per distinct surface). -/
def numAlignableMeasurements (multiTraj : List TrackState)
    (idxed : List (ℕ × ℕ)) : ℕ :=
  (multiTraj.filter fun ts =>
    ts.isMeasurement && (idxed.lookup ts.surfaceId).isSome).length

/-- Number of measurement states of a trajectory. -/
def numMeasurementStates (multiTraj : List TrackState) : ℕ :=
  (multiTraj.filter fun ts => ts.isMeasurement).length

/-- Statement of the claim in the wording of the spec: six alignment parameters
per DISTINCT alignable surface carrying a measurement on the track (a
surface carrying several measurements counts once). -/
def specAlignmentDof (multiTraj : List TrackState)
    (idxed : List (ℕ × ℕ)) : ℕ :=
  eAlignmentParametersSize *
    ((multiTraj.filter fun ts =>
      ts.isMeasurement && (idxed.lookup ts.surfaceId).isSome).map
        (fun ts => ts.surfaceId)).dedup.length

/-- C3 counterexample: a trajectory with two measurement states on the
same registered surface.  The code computes `alignmentDof = 12`, the
claimed formula (six per distinct surface) gives `6`. -/
def c3state (i : ℕ) : TrackState :=
  { index := i, hasSmoothed := true, isMeasurement := true,
    surfaceId := 0, calibratedSize := 1,
    calibratedCovariance := fun r c => if r = 0 ∧ c = 0 then 1 else 0,
    projector := fun _ _ => 0, calibrated := fun _ => 0,
    filtered := fun _ => 0 }

/-- Concrete one-state track carrying a two-dimensional (pixel-like)
measurement on the registered surface `0`. -/
def c9state : TrackState :=
  { index := 0, hasSmoothed := true, isMeasurement := true,
    surfaceId := 0, calibratedSize := 2,
    calibratedCovariance := fun r c => if r = c then 1 else 0,
    projector := fun _ _ => 0, calibrated := fun _ => 0,
    filtered := fun _ => 0 }

/-- Constructor test for `Acts::Result`-style values: `true` exactly on
success. -/
def exceptIsOk {ε α : Type} : Except ε α → Bool
  | .ok _ => true
  | .error _ => false

/-- Concrete fitted track whose only measurement sits on surface `5`,
which is not in the registry `[(0, 0)]`. -/
def c8state : TrackState :=
  { index := 0, hasSmoothed := true, isMeasurement := true,
    surfaceId := 5, calibratedSize := 1,
    calibratedCovariance := fun r c => if r = c then 1 else 0,
    projector := fun _ _ => 0, calibrated := fun _ => 0,
    filtered := fun _ => 0 }

/-- Per-track contribution to `sumChi2ONdf`: a track whose evaluation
succeeds adds its own `chi2 / measurementDim`; a failed or zero-DOF
track adds nothing. -/
def trackChi2ONdf (idxed : List (ℕ × ℕ)) (fr : Option FitOutput) : ℚ :=
  match evaluateTrackAlignmentState fr idxed with
  | .ok st => st.chi2 / (st.measurementDim : ℚ)
  | .error _ => 0

/-- Statement of the claim in the wording of the spec: the mean of
`chi2 / measurementDim` over ONLY the contributing tracks (those whose
evaluation succeeded), with failed tracks excluded from the track
count. -/
def specAverageChi2ONdf (idxed : List (ℕ × ℕ))
    (l : List (Option FitOutput)) : ℚ :=
  let contribs := l.filterMap (fun fr =>
    match evaluateTrackAlignmentState fr idxed with
    | .ok st => some (st.chi2 / (st.measurementDim : ℚ))
    | .error _ => none)
  contribs.sum / (contribs.length : ℚ)

/-- Concrete fitted track: one 1-dimensional measurement on registered
surface `0`, measured value `2`, unit covariance, zero projector —
its residual is `2` and its chi2 is `4`. -/
def c2state : TrackState :=
  { index := 0, hasSmoothed := true, isMeasurement := true,
    surfaceId := 0, calibratedSize := 1,
    calibratedCovariance := fun r c => if r = 0 ∧ c = 0 then 1 else 0,
    projector := fun _ _ => 0, calibrated := fun _ => 2,
    filtered := fun _ => 0 }

/-- Fit output wrapping `c2state`. -/
def c2fit : FitOutput := ⟨[c2state], fun _ _ => 0, fun _ => 0⟩

/-! Theorems. -/

theorem detD_eq (n : ℕ) (A : ℕ → ℕ → ℚ) : detD n A = (toFinM n A).det := by
  induction n generalizing A with
  | zero => simp [detD, toFinM, Matrix.det_fin_zero]
  | succ m ih =>
    rw [Matrix.det_succ_column_zero, detD,
      ← Fin.sum_univ_eq_sum_range
        (fun i => (-1:ℚ)^i * A i 0 * detD m (fun r c => A (if r < i then r else r+1) (c+1)))]
    refine Finset.sum_congr rfl fun i _ => ?_
    rw [ih]
    congr 1
    congr 1
    apply Matrix.ext
    intro r c
    simp only [toFinM, Matrix.submatrix_apply, Matrix.of_apply]
    congr 1
    rcases Nat.lt_or_ge r.val i.val with h | h
    · rw [Fin.succAbove_of_castSucc_lt _ _ (by simpa [Fin.lt_def] using h)]
      simp [h]
    · rw [Fin.succAbove_of_le_castSucc _ _ (by simpa [Fin.le_def] using h)]
      simp [Nat.not_lt.mpr h]

theorem adjD_eq (n : ℕ) (A : ℕ → ℕ → ℚ) (i j : Fin n) :
    adjD n A i.val j.val = (toFinM n A).adjugate i j := by
  rw [Matrix.adjugate_apply, adjD, detD_eq]
  congr 1
  apply Matrix.ext
  intro r c
  simp only [toFinM, Matrix.updateRow_apply, updRowD, Matrix.of_apply]
  rcases eq_or_ne r j with h | h
  · subst h
    rw [if_pos rfl, if_pos rfl]
    rcases eq_or_ne c i with h2 | h2
    · subst h2; rw [if_pos rfl, Pi.single_apply, if_pos rfl]
    · rw [if_neg (fun hh => h2 (Fin.ext hh)), Pi.single_apply, if_neg h2]
  · rw [if_neg (fun hh => h (Fin.ext hh)), if_neg h]

theorem dynVectorEqOf {v w : DynVector} (hs : v.size = w.size)
    (he : v.entry = w.entry) : v = w := by
  cases v; cases w; cases hs; cases he; rfl

theorem dynMatrixEqOf {A B : DynMatrix} (hr : A.rows = B.rows)
    (hc : A.cols = B.cols) (he : A.entry = B.entry) : A = B := by
  cases A; cases B; cases hr; cases hc; cases he; rfl

theorem foldlConst {α β : Type} (f : β → α → β) (h : ∀ b a, f b a = b) :
    ∀ (l : List α) (b : β), l.foldl f b = b := by
  intro l
  induction l with
  | nil => intro b; rfl
  | cons a l ih => intro b; rw [List.foldl_cons, h]; exact ih b

theorem addSegment_zero (v : DynVector) (i0 len : ℕ) (w : ℕ → ℚ)
    (h : ∀ k, w k = 0) : v.addSegment i0 len w = v := by
  refine dynVectorEqOf rfl ?_
  funext i
  simp only [DynVector.addSegment]
  split
  · rw [h, add_zero]
  · rfl

theorem addBlock_zero (A : DynMatrix) (r0 c0 nr nc : ℕ) (B : ℕ → ℕ → ℚ)
    (h : ∀ r c, B r c = 0) : A.addBlock r0 c0 nr nc B = A := by
  refine dynMatrixEqOf rfl rfl ?_
  funext i j
  simp only [DynMatrix.addBlock]
  split
  · rw [h, add_zero]
  · rfl

theorem mul_entry_zero_left (A B : DynMatrix)
    (h : ∀ i j, A.entry i j = 0) (i j : ℕ) : (A.mul B).entry i j = 0 := by
  simp only [DynMatrix.mul]
  exact Finset.sum_eq_zero fun t _ => by rw [h, zero_mul]

theorem mulVec_entry_zero_left (A : DynMatrix) (v : DynVector)
    (h : ∀ i j, A.entry i j = 0) (i : ℕ) : (A.mulVec v).entry i = 0 := by
  simp only [DynMatrix.mulVec]
  exact Finset.sum_eq_zero fun t _ => by rw [h, zero_mul]

theorem zero_transpose_entry (r c : ℕ) (i j : ℕ) :
    (DynMatrix.zero r c).transpose.entry i j = 0 := rfl

/-- Entries of `alignmentToResidualDerivative` after `trackAlignmentState`:
the matrix is allocated as `Zero(measurementDim, alignmentDof)` and the
fill loop never writes to it (the write at AlignmentEngine.hpp lines
210-214 only updates `alignedSurfaces`), so every entry stays `0`. -/
theorem tas_resDeriv_zero (multiTraj : List TrackState)
    (sourceCov : ℕ → ℕ → ℚ) (rowIdx : ℕ → ℕ) (idxed : List (ℕ × ℕ))
    (i j : ℕ) :
    (trackAlignmentState multiTraj sourceCov rowIdx
      idxed).alignmentToResidualDerivative.entry i j = 0 := by
  simp only [trackAlignmentState]
  split
  · rfl
  · rfl

theorem tas_chi2Deriv_zero (multiTraj : List TrackState)
    (sourceCov : ℕ → ℕ → ℚ) (rowIdx : ℕ → ℕ) (idxed : List (ℕ × ℕ))
    (i : ℕ) :
    (trackAlignmentState multiTraj sourceCov rowIdx
      idxed).alignmentToChi2Derivative.entry i = 0 := by
  simp only [trackAlignmentState]
  split
  · rfl
  · simp only [DynVector.smul]
    rw [mulVec_entry_zero_left _ _ (fun a b =>
      mul_entry_zero_left _ _ (fun a b =>
        mul_entry_zero_left _ _ (fun a b =>
          mul_entry_zero_left _ _ (fun a b => rfl) a b) a b) a b) i,
      mul_zero]

theorem tas_chi2Second_zero (multiTraj : List TrackState)
    (sourceCov : ℕ → ℕ → ℚ) (rowIdx : ℕ → ℕ) (idxed : List (ℕ × ℕ))
    (i j : ℕ) :
    (trackAlignmentState multiTraj sourceCov rowIdx
      idxed).alignmentToChi2SecondDerivative.entry i j = 0 := by
  simp only [trackAlignmentState]
  split
  · rfl
  · simp only [DynMatrix.smul]
    rw [mul_entry_zero_left _ _ (fun a b =>
      mul_entry_zero_left _ _ (fun a b =>
        mul_entry_zero_left _ _ (fun a b =>
          mul_entry_zero_left _ _ (fun a b => rfl) a b) a b) a b) i j,
      mul_zero]

/-- The `isAlignable` flag of every recorded measurement state is
`false`: the visitor pushes `{ts.index(), isAlignable}` with
`isAlignable` still at its initialization value. -/
theorem visit_flags_false (idxed : List (ℕ × ℕ))
    (multiTraj : List TrackState) :
    ((visitAll multiTraj idxed).measurementStates.all
      (fun p => !p.2)) = true := by
  have key : ∀ (l : List TrackState) (acc : VisitAccum),
      acc.measurementStates.all (fun p => !p.2) = true →
      ((l.foldl (visitStep idxed) acc).measurementStates.all
        (fun p => !p.2)) = true := by
    intro l
    induction l with
    | nil => intro acc h; exact h
    | cons ts l ih =>
      intro acc h
      rw [List.foldl_cons]
      refine ih _ ?_
      simp only [visitStep]
      cases hs : ts.hasSmoothed <;> cases hm : ts.isMeasurement <;>
        cases hl : idxed.lookup ts.surfaceId <;>
          simp_all [List.all_append]
  exact key multiTraj _ rfl

/-- One track never changes the global gradient / Hessian accumulators:
either its evaluation failed (the loop `continue`s), or the segments and
blocks it adds are segments of the all-zero derivative vector/matrix. -/
theorem accumulateTrack_sums_fixed (idxed : List (ℕ × ℕ))
    (acc : AccumState) (fr : Option FitOutput) :
    (accumulateTrack idxed acc fr).sumChi2Derivative
        = acc.sumChi2Derivative
    ∧ (accumulateTrack idxed acc fr).sumChi2SecondDerivative
        = acc.sumChi2SecondDerivative := by
  simp only [accumulateTrack]
  cases h : evaluateTrackAlignmentState fr idxed with
  | error e => exact ⟨rfl, rfl⟩
  | ok st =>
    cases fr with
    | none => simp [evaluateTrackAlignmentState] at h
    | some out =>
      simp only [evaluateTrackAlignmentState] at h
      split at h
      · cases h
      · injection h with h
        subst h
        constructor
        · exact foldlConst _ (fun g rows => addSegment_zero _ _ _ _
            (fun k => tas_chi2Deriv_zero _ _ _ _ _)) _ _
        · exact foldlConst _ (fun hm rows => foldlConst _
            (fun hm2 cols => addBlock_zero _ _ _ _ _ _
              (fun r c => tas_chi2Second_zero _ _ _ _ _ _)) _ _) _ _

/-- C1. In `trackAlignmentState` the per-state alignability flag is
initialized to `false` and never set to `true`; consequently the
`alignmentToResidualDerivative` matrix of every produced state is all
zeros, the chain-rule first and second chi2 derivatives are the zero
vector/matrix, and the per-track segments and blocks that
`updateAlignmentParameters` adds into the global gradient and Hessian
sums leave those sums unchanged. -/
theorem claim1_alignability_never_set (multiTraj : List TrackState)
    (sourceCov : ℕ → ℕ → ℚ) (rowIdx : ℕ → ℕ) (idxed : List (ℕ × ℕ)) :
    ((visitAll multiTraj idxed).measurementStates.all
        (fun p => !p.2)) = true
    ∧ (∀ i j, (trackAlignmentState multiTraj sourceCov rowIdx
        idxed).alignmentToResidualDerivative.entry i j = 0)
    ∧ (∀ i, (trackAlignmentState multiTraj sourceCov rowIdx
        idxed).alignmentToChi2Derivative.entry i = 0)
    ∧ (∀ i j, (trackAlignmentState multiTraj sourceCov rowIdx
        idxed).alignmentToChi2SecondDerivative.entry i j = 0)
    ∧ (∀ (idxed2 : List (ℕ × ℕ)) (acc : AccumState)
        (fr : Option FitOutput),
        (accumulateTrack idxed2 acc fr).sumChi2Derivative
            = acc.sumChi2Derivative
        ∧ (accumulateTrack idxed2 acc fr).sumChi2SecondDerivative
            = acc.sumChi2SecondDerivative) :=
  ⟨visit_flags_false idxed multiTraj,
    tas_resDeriv_zero multiTraj sourceCov rowIdx idxed,
    tas_chi2Deriv_zero multiTraj sourceCov rowIdx idxed,
    tas_chi2Second_zero multiTraj sourceCov rowIdx idxed,
    fun idxed2 acc fr => accumulateTrack_sums_fixed idxed2 acc fr⟩

theorem visit_nAlign_aux (idxed : List (ℕ × ℕ)) :
    ∀ (l : List TrackState) (acc : VisitAccum),
    (l.foldl (visitStep idxed) acc).nAlignSurfaces
      = acc.nAlignSurfaces + numAlignableMeasurements l idxed := by
  intro l
  induction l with
  | nil => intro acc; simp [numAlignableMeasurements]
  | cons ts l ih =>
    intro acc
    rw [List.foldl_cons, ih]
    simp only [numAlignableMeasurements, List.filter_cons, visitStep]
    cases hs : ts.hasSmoothed <;> cases hm : ts.isMeasurement <;>
      cases hl : idxed.lookup ts.surfaceId <;>
        simp_all [numAlignableMeasurements] <;> omega

theorem visit_states_len_aux (idxed : List (ℕ × ℕ)) :
    ∀ (l : List TrackState) (acc : VisitAccum),
    (l.foldl (visitStep idxed) acc).measurementStates.length
      = acc.measurementStates.length + numMeasurementStates l := by
  intro l
  induction l with
  | nil => intro acc; simp [numMeasurementStates]
  | cons ts l ih =>
    intro acc
    rw [List.foldl_cons, ih]
    simp only [numMeasurementStates, List.filter_cons, visitStep]
    cases hs : ts.hasSmoothed <;> cases hm : ts.isMeasurement <;>
      cases hl : idxed.lookup ts.surfaceId <;>
        simp_all [numMeasurementStates] <;> omega

theorem foldl_preserve_dims {α : Type} (f : DynMatrix → α → DynMatrix)
    (h : ∀ M a, (f M a).rows = M.rows ∧ (f M a).cols = M.cols) :
    ∀ (l : List α) (M : DynMatrix),
    (l.foldl f M).rows = M.rows ∧ (l.foldl f M).cols = M.cols := by
  intro l
  induction l with
  | nil => intro M; exact ⟨rfl, rfl⟩
  | cons a l ih =>
    intro M
    rw [List.foldl_cons]
    exact ⟨(ih (f M a)).1.trans (h M a).1, (ih (f M a)).2.trans (h M a).2⟩

theorem fillCovRow_dims (sourceCov : ℕ → ℕ → ℚ) (rowIdx : ℕ → ℕ)
    (mss : List (ℕ × Bool)) (tpd rsi ip : ℕ) (M : DynMatrix) :
    (fillCovRow sourceCov rowIdx mss tpd rsi ip M).rows = M.rows
    ∧ (fillCovRow sourceCov rowIdx mss tpd rsi ip M).cols = M.cols := by
  simp only [fillCovRow]
  apply foldl_preserve_dims
  intro M2 a
  exact ⟨rfl, rfl⟩

theorem fill_dims (mt : List TrackState) (sc : ℕ → ℕ → ℚ) (ri : ℕ → ℕ)
    (mss : List (ℕ × Bool)) (tpd : ℕ) :
    ∀ (l : List (ℕ × Bool)) (acc : FillAccum),
    (l.foldl (fillStep mt sc ri mss tpd) acc).projectionMatrix.rows
        = acc.projectionMatrix.rows
    ∧ (l.foldl (fillStep mt sc ri mss tpd) acc).projectionMatrix.cols
        = acc.projectionMatrix.cols
    ∧ (l.foldl (fillStep mt sc ri mss tpd)
        acc).trackParametersCovariance.rows
        = acc.trackParametersCovariance.rows
    ∧ (l.foldl (fillStep mt sc ri mss tpd)
        acc).trackParametersCovariance.cols
        = acc.trackParametersCovariance.cols := by
  intro l
  induction l with
  | nil => intro acc; exact ⟨rfl, rfl, rfl, rfl⟩
  | cons a l ih =>
    intro acc
    rw [List.foldl_cons]
    obtain ⟨h1, h2, h3, h4⟩ := ih (fillStep mt sc ri mss tpd acc a)
    refine ⟨h1.trans rfl, h2.trans rfl, h3.trans ?_, h4.trans ?_⟩
    · exact (fillCovRow_dims sc ri mss tpd _ _ _).1
    · exact (fillCovRow_dims sc ri mss tpd _ _ _).2

/-- C3 (amended). `alignmentDof` equals six times the number of
measurement STATES on registered surfaces: `nAlignSurfaces` is
incremented once per measurement state whose surface is found in the
registry, so a surface carrying several measurements on the track is
counted once per measurement. -/
theorem claim3_alignmentDof_per_state (multiTraj : List TrackState)
    (sourceCov : ℕ → ℕ → ℚ) (rowIdx : ℕ → ℕ) (idxed : List (ℕ × ℕ)) :
    (trackAlignmentState multiTraj sourceCov rowIdx idxed).alignmentDof
      = eAlignmentParametersSize
        * numAlignableMeasurements multiTraj idxed := by
  have hn : (visitAll multiTraj idxed).nAlignSurfaces
      = numAlignableMeasurements multiTraj idxed := by
    rw [visitAll, visit_nAlign_aux]
    simp
  simp only [trackAlignmentState]
  split
  · next h0 =>
    rw [hn] at h0
    simp [h0]
  · rw [hn]

/-- C3 counterexample: on a trajectory with two measurement states on
the same registered surface, the code computes `alignmentDof = 12`
while the claimed formula (six per distinct alignable surface carrying
a measurement) gives `6`. -/
theorem claim3_counterexample :
    (trackAlignmentState [c3state 0, c3state 1] (fun _ _ => 0)
      (fun _ => 0) [(0, 0)]).alignmentDof = 12
    ∧ specAlignmentDof [c3state 0, c3state 1] [(0, 0)] = 6
    ∧ (trackAlignmentState [c3state 0, c3state 1] (fun _ _ => 0)
        (fun _ => 0) [(0, 0)]).alignmentDof
      ≠ specAlignmentDof [c3state 0, c3state 1] [(0, 0)] := by
  refine ⟨by decide, by decide, by decide⟩

/-- C9 (amended).  For a track with at least one alignable measurement
state, the total track-parameter dimension is `eBoundParametersSize ×
(number of measurement states)` — one bound-parameter block per
measurement state, NOT `6 × measurementDim` — and the block matrices are
allocated accordingly: the projection matrix is `measurementDim ×
trackParametersDim` and the track-parameters covariance is square of
size `trackParametersDim`. -/
theorem claim9_block_dimensions (multiTraj : List TrackState)
    (sourceCov : ℕ → ℕ → ℚ) (rowIdx : ℕ → ℕ) (idxed : List (ℕ × ℕ))
    (h : numAlignableMeasurements multiTraj idxed ≠ 0) :
    (trackAlignmentState multiTraj sourceCov rowIdx
        idxed).trackParametersDim
      = eBoundParametersSize * numMeasurementStates multiTraj
    ∧ (trackAlignmentState multiTraj sourceCov rowIdx
        idxed).projectionMatrix.rows
      = (trackAlignmentState multiTraj sourceCov rowIdx
        idxed).measurementDim
    ∧ (trackAlignmentState multiTraj sourceCov rowIdx
        idxed).projectionMatrix.cols
      = (trackAlignmentState multiTraj sourceCov rowIdx
        idxed).trackParametersDim
    ∧ (trackAlignmentState multiTraj sourceCov rowIdx
        idxed).trackParametersCovariance.rows
      = (trackAlignmentState multiTraj sourceCov rowIdx
        idxed).trackParametersDim
    ∧ (trackAlignmentState multiTraj sourceCov rowIdx
        idxed).trackParametersCovariance.cols
      = (trackAlignmentState multiTraj sourceCov rowIdx
        idxed).trackParametersDim := by
  have hn : (visitAll multiTraj idxed).nAlignSurfaces
      = numAlignableMeasurements multiTraj idxed := by
    rw [visitAll, visit_nAlign_aux]
    simp
  have hlen : (visitAll multiTraj idxed).measurementStates.length
      = numMeasurementStates multiTraj := by
    rw [visitAll, visit_states_len_aux]
    simp
  simp only [trackAlignmentState]
  split
  · next h0 => exact absurd (hn ▸ h0) h
  · obtain ⟨d1, d2, d3, d4⟩ := fill_dims multiTraj sourceCov rowIdx
      (visitAll multiTraj idxed).measurementStates
      (eBoundParametersSize
        * (visitAll multiTraj idxed).measurementStates.length)
      (visitAll multiTraj idxed).measurementStates
      ⟨(visitAll multiTraj idxed).measurementDim,
        eBoundParametersSize
          * (visitAll multiTraj idxed).measurementStates.length,
        (visitAll multiTraj idxed).nAlignSurfaces,
        DynMatrix.zero (visitAll multiTraj idxed).measurementDim
          (visitAll multiTraj idxed).measurementDim,
        DynMatrix.zero (visitAll multiTraj idxed).measurementDim
          (eBoundParametersSize
            * (visitAll multiTraj idxed).measurementStates.length),
        DynVector.zero (visitAll multiTraj idxed).measurementDim,
        DynMatrix.zero
          (eBoundParametersSize
            * (visitAll multiTraj idxed).measurementStates.length)
          (eBoundParametersSize
            * (visitAll multiTraj idxed).measurementStates.length),
        (visitAll multiTraj idxed).alignedSurfaces⟩
    exact ⟨by rw [hlen], d1, d2, d3, d4⟩

/-- C9 counterexample: with one 2-dimensional measurement state,
`measurementDim = 2` but `trackParametersDim = 6`, not
`6 × measurementDim = 12`. -/
theorem claim9_counterexample :
    (trackAlignmentState [c9state] (fun _ _ => 0) (fun _ => 0)
      [(0, 0)]).trackParametersDim = 6
    ∧ (trackAlignmentState [c9state] (fun _ _ => 0) (fun _ => 0)
      [(0, 0)]).measurementDim = 2
    ∧ (trackAlignmentState [c9state] (fun _ _ => 0) (fun _ => 0)
        [(0, 0)]).trackParametersDim
      ≠ eBoundParametersSize
        * (trackAlignmentState [c9state] (fun _ _ => 0) (fun _ => 0)
          [(0, 0)]).measurementDim :=
  ⟨by decide, by decide, by decide⟩

/-- C9 witness: the amended dimension statement evaluated on the
concrete one-state track above. -/
theorem claim9_witness :
    numAlignableMeasurements [c9state] [(0, 0)] ≠ 0
    ∧ (trackAlignmentState [c9state] (fun _ _ => 0) (fun _ => 0)
        [(0, 0)]).trackParametersDim
      = eBoundParametersSize * numMeasurementStates [c9state] :=
  ⟨by decide,
    (claim9_block_dimensions [c9state] (fun _ _ => 0) (fun _ => 0)
      [(0, 0)] (by decide)).1⟩

/-- C8.  A successfully fitted track that touches no registered alignable
surface (`alignmentDof == 0`) is reported as `NoAlignmentDofOnTrack`;
the track loop `continue`s over it, so it contributes nothing to the
accumulated gradient, Hessian, chi2, measurement-dimension and
chi2/ndf sums, and the success or failure of the whole
`updateAlignmentParameters` call is unchanged by its presence. -/
theorem claim8_no_dof_track (out : FitOutput) (idxed : List (ℕ × ℕ))
    (h : (trackAlignmentState out.fittedStates out.sourceTrackParamsCov
      out.stateRowIndices idxed).alignmentDof = 0) :
    evaluateTrackAlignmentState (some out) idxed
        = .error .noAlignmentDofOnTrack
    ∧ (∀ acc, accumulateTrack idxed acc (some out) = acc)
    ∧ (∀ dof l1 l2, accumulateTracks idxed dof (l1 ++ some out :: l2)
        = accumulateTracks idxed dof (l1 ++ l2))
    ∧ (∀ (τ : Type) (l1 l2 : List (Option FitOutput)) (elems : List ℕ)
        (updater : ℕ → τ → Bool) (compose : ℕ → (ℕ → ℚ) → τ)
        (nan : DynMatrix → Bool),
        indexAlignSurfaces elems = idxed →
        exceptIsOk (updateAlignmentParameters (l1 ++ some out :: l2)
            elems updater compose nan)
          = exceptIsOk (updateAlignmentParameters (l1 ++ l2)
            elems updater compose nan)) := by
  have h1 : evaluateTrackAlignmentState (some out) idxed
      = .error .noAlignmentDofOnTrack := by
    simp only [evaluateTrackAlignmentState]
    rw [if_pos h]
  have h2 : ∀ acc, accumulateTrack idxed acc (some out) = acc := by
    intro acc
    simp only [accumulateTrack, h1]
  have h3 : ∀ dof l1 l2,
      accumulateTracks idxed dof (l1 ++ some out :: l2)
        = accumulateTracks idxed dof (l1 ++ l2) := by
    intro dof l1 l2
    simp only [accumulateTracks, List.foldl_append, List.foldl_cons, h2]
  refine ⟨h1, h2, h3, ?_⟩
  intro τ l1 l2 elems updater compose nan hidx
  subst hidx
  simp only [updateAlignmentParameters, h3]
  cases (updateTransforms updater _ (indexAlignSurfaces elems)).2 <;> rfl

/-- C8 witness: the zero-DOF reporting evaluated on a concrete fitted
track whose only measurement surface is not registered. -/
theorem claim8_witness :
    (trackAlignmentState [c8state] (fun _ _ => 0) (fun _ => 0)
      [(0, 0)]).alignmentDof = 0
    ∧ evaluateTrackAlignmentState
        (some ⟨[c8state], fun _ _ => 0, fun _ => 0⟩) [(0, 0)]
      = .error .noAlignmentDofOnTrack :=
  ⟨by decide,
    (claim8_no_dof_track ⟨[c8state], fun _ _ => 0, fun _ => 0⟩ [(0, 0)]
      (by decide)).1⟩

theorem updateTransforms_cons {τ : Type} (u : ℕ → τ → Bool)
    (newT : ℕ → τ) (e : ℕ × ℕ) (rest : List (ℕ × ℕ)) :
    updateTransforms u newT (e :: rest)
      = if u e.2 (newT e.2) then
          ((e.2 :: (updateTransforms u newT rest).1,
            (updateTransforms u newT rest).2))
        else ([e.2], .error .alignmentParametersUpdateFailure) := rfl

/-- C4.  When the transform-update callback fails on some element, the
update loop stops right there: it returns
`AlignmentParametersUpdateFailure`, having attempted exactly the
preceding (successful) elements plus the failing one — none of the
remaining elements is attempted — and an iteration of the driver loop
whose `updateAlignmentParameters` call returned an error aborts the
whole run with that error. -/
theorem claim4_update_failure_aborts {τ : Type}
    (updater : ℕ → τ → Bool) (newT : ℕ → τ)
    (pre : List (ℕ × ℕ)) (k : ℕ × ℕ) (post : List (ℕ × ℕ))
    (hpre : ∀ e ∈ pre, updater e.2 (newT e.2) = true)
    (hk : updater k.2 (newT k.2) = false) :
    updateTransforms updater newT (pre ++ k :: post)
      = (pre.map (fun e => e.2) ++ [k.2],
         .error .alignmentParametersUpdateFailure)
    ∧ (∀ (outcome : ℕ → Except AlignmentError ℚ) (cutoff tol : ℚ)
        (w fuel iIter : ℕ) (q : List ℚ) (e : AlignmentError),
        outcome iIter = .error e →
        alignLoop outcome cutoff w tol (fuel+1) iIter q = .error e) := by
  constructor
  · induction pre with
    | nil =>
      rw [List.nil_append, updateTransforms_cons, hk]
      simp
    | cons a pre ih =>
      have ha := hpre a (List.mem_cons_self a pre)
      have hrest := ih (fun e he => hpre e (List.mem_cons_of_mem a he))
      rw [List.cons_append, updateTransforms_cons, ha, hrest]
      simp
  · intro outcome cutoff tol w fuel iIter q e he
    simp only [alignLoop, he]

/-- C4 witness: the early-abort behaviour of the transform-update loop
evaluated on a concrete three-element registry whose updater accepts
only element `0`. -/
theorem claim4_witness :
    ((fun (i : ℕ) (_ : Unit) => i == 0) 1 () = false)
    ∧ updateTransforms (fun (i : ℕ) (_ : Unit) => i == 0) (fun _ => ())
        ([(5, 0)] ++ (7, 1) :: [(9, 2)])
      = ([0, 1], .error .alignmentParametersUpdateFailure) :=
  ⟨rfl,
    (claim4_update_failure_aborts (fun (i : ℕ) (_ : Unit) => i == 0)
      (fun _ => ()) [(5, 0)] (7, 1) [(9, 2)]
      (by intro e he; simp at he; subst he; rfl) rfl).1⟩

/-- C7.  The NaN test on the inverted chi2 second-derivative matrix is
logged only (the early return is commented out in the source): the
result of `updateAlignmentParameters` does not depend on the outcome of
the check in any way, and when the transform updater accepts every
proposed transform the call still returns success, with the delta and
covariance computed from the (possibly degenerate) inversion. -/
theorem claim7_nan_not_fatal {τ : Type}
    (trajectoryCollection : List (Option FitOutput))
    (alignedDetElements : List ℕ) (updater : ℕ → τ → Bool)
    (compose : ℕ → (ℕ → ℚ) → τ) (check1 check2 : DynMatrix → Bool) :
    updateAlignmentParameters trajectoryCollection alignedDetElements
        updater compose check1
      = updateAlignmentParameters trajectoryCollection alignedDetElements
        updater compose check2
    ∧ ((∀ (idx : ℕ) (t : τ), updater idx t = true) →
        exceptIsOk (updateAlignmentParameters trajectoryCollection
          alignedDetElements updater compose check1) = true) := by
  constructor
  · rfl
  · intro hup
    have hok : ∀ (l : List (ℕ × ℕ)) (newT : ℕ → τ),
        (updateTransforms updater newT l).2 = .ok () := by
      intro l
      induction l with
      | nil => intro newT; rfl
      | cons a l ih =>
        intro newT
        simp only [updateTransforms, hup, if_true]
        exact ih newT
    simp only [updateAlignmentParameters, hok]
    rfl

/-- C7 witness: an always-accepting updater yields a successful
`updateAlignmentParameters` call, with the NaN check discarded. -/
theorem claim7_witness :
    (∀ (idx : ℕ) (t : Unit), (fun (_ : ℕ) (_ : Unit) => true) idx t = true)
    ∧ exceptIsOk (updateAlignmentParameters ([] : List (Option FitOutput))
        [] (fun (_ : ℕ) (_ : Unit) => true) (fun _ _ => ())
        (fun _ => true)) = true :=
  ⟨fun _ _ => rfl,
    (claim7_nan_not_fatal [] [] (fun (_ : ℕ) (_ : Unit) => true)
      (fun _ _ => ()) (fun _ => true) (fun _ => false)).2
      (fun _ _ => rfl)⟩

/-- C10.  `averageChi2ONdf` is computed as `sumChi2ONdf / numTracks`
where `numTracks` is the size of the input trajectory collection — any
`.ok` result carries `numTracks = trajectoryCollection.length` — and
there is no emptiness guard: for an empty collection the numerator and
denominator are both zero, so the C++ `double` computation is the
indeterminate `0.0 / 0.0` (NaN; in this rational model the same
division `0 / 0` appears, with the Lean convention `0 / 0 = 0`). -/
theorem claim10_empty_collection_division
    (idxed : List (ℕ × ℕ)) (dof : ℕ) :
    (∀ l, averageChi2ONdfOf (accumulateTracks idxed dof l) l.length
      = (accumulateTracks idxed dof l).sumChi2ONdf / (l.length : ℚ))
    ∧ (accumulateTracks idxed dof []).sumChi2ONdf = 0
    ∧ averageChi2ONdfOf (accumulateTracks idxed dof [])
        (List.length ([] : List (Option FitOutput))) = (0 : ℚ) / (0 : ℚ)
    ∧ (∀ (τ : Type) (l : List (Option FitOutput)) (elems : List ℕ)
        (updater : ℕ → τ → Bool) (compose : ℕ → (ℕ → ℚ) → τ)
        (nan : DynMatrix → Bool),
        match updateAlignmentParameters l elems updater compose nan with
        | .ok r => r.numTracks = l.length
        | .error _ => True) := by
  refine ⟨fun l => rfl, rfl, ?_, ?_⟩
  · simp only [averageChi2ONdfOf, accumulateTracks, List.foldl_nil,
      initAccum, List.length_nil, Nat.cast_zero]
  · intro τ l elems updater compose nan
    simp only [updateAlignmentParameters]
    cases (updateTransforms updater _ (indexAlignSurfaces elems)).2 <;>
      simp

/-- C5.  The driver keeps a FIFO window of recent `averageChi2ONdf`
values: at an iteration whose average is above the absolute cutoff, if
the window already holds `windowSize` entries and the oldest one differs
from the current value by at most the delta tolerance the run converges
right there; otherwise the oldest entry is evicted and the current value
pushed (keeping the window at `windowSize` entries); while the window is
not yet full the current value is simply pushed. -/
theorem claim5_convergence_window
    (outcome : ℕ → Except AlignmentError ℚ) (cutoff tol : ℚ)
    (w fuel iIter : ℕ) (q : List ℚ) (v : ℚ)
    (hv : outcome iIter = .ok v) (habs : ¬ v ≤ cutoff) :
    (w ≤ q.length → |q.headI - v| ≤ tol →
      alignLoop outcome cutoff w tol (fuel+1) iIter q = .ok true)
    ∧ (w ≤ q.length → ¬ |q.headI - v| ≤ tol →
      alignLoop outcome cutoff w tol (fuel+1) iIter q
        = alignLoop outcome cutoff w tol fuel (iIter+1) (q.tail ++ [v]))
    ∧ (q.length < w →
      alignLoop outcome cutoff w tol (fuel+1) iIter q
        = alignLoop outcome cutoff w tol fuel (iIter+1) (q ++ [v]))
    ∧ (q.length = w → 0 < w → (q.tail ++ [v]).length = w) := by
  refine ⟨?_, ?_, ?_, ?_⟩
  · intro hfull htol
    simp only [alignLoop, hv]
    rw [if_neg habs, if_pos hfull, if_pos htol]
  · intro hfull htol
    simp only [alignLoop, hv]
    rw [if_neg habs, if_pos hfull, if_neg htol]
  · intro hlt
    simp only [alignLoop, hv]
    rw [if_neg habs, if_neg (Nat.not_le.mpr hlt)]
  · intro hlen hw
    rw [List.length_append, List.length_tail, hlen]
    simp
    omega

/-- C5 witness: the window-convergence branch evaluated on a full
concrete window whose oldest entry equals the current value. -/
theorem claim5_witness :
    ((fun (_ : ℕ) => Except.ok (ε := AlignmentError) (1 : ℚ)) 0
        = .ok (1 : ℚ))
    ∧ ¬ (1 : ℚ) ≤ 1/2
    ∧ alignLoop (fun _ => .ok (1 : ℚ)) (1/2) 3 (1/100000) 1 0
        [1, 2, 3] = .ok true :=
  ⟨rfl, by norm_num,
    (claim5_convergence_window (fun _ => .ok (1 : ℚ)) (1/2) (1/100000)
      3 0 0 [1, 2, 3] 1 rfl (by norm_num)).1 (by decide)
      (by norm_num [List.headI])⟩

theorem accum_sumChi2ONdf_aux (idxed : List (ℕ × ℕ)) :
    ∀ (l : List (Option FitOutput)) (a : AccumState),
    (l.foldl (accumulateTrack idxed) a).sumChi2ONdf
      = a.sumChi2ONdf + (l.map (trackChi2ONdf idxed)).sum := by
  intro l
  induction l with
  | nil => intro a; simp
  | cons fr l ih =>
    intro a
    rw [List.foldl_cons, ih, List.map_cons, List.sum_cons]
    cases h : evaluateTrackAlignmentState fr idxed with
    | error e =>
      simp only [accumulateTrack, h, trackChi2ONdf]
      ring
    | ok st =>
      simp only [accumulateTrack, h, trackChi2ONdf]
      ring

/-- C2 (amended).  `averageChi2ONdf` is the sum over the contributing
tracks of the own `chi2 / measurementDim` of that track — failed and
zero-DOF tracks add nothing to the numerator — divided by the size of
the WHOLE input trajectory collection: `numTracks` counts the failed
and zero-DOF tracks too, so the reported value is not the mean over
contributing tracks whenever any track was skipped. -/
theorem claim2_average_over_all_tracks (idxed : List (ℕ × ℕ))
    (dof : ℕ) (l : List (Option FitOutput)) :
    (accumulateTracks idxed dof l).sumChi2ONdf
      = (l.map (trackChi2ONdf idxed)).sum
    ∧ averageChi2ONdfOf (accumulateTracks idxed dof l) l.length
      = (l.map (trackChi2ONdf idxed)).sum / (l.length : ℚ) := by
  have h : (accumulateTracks idxed dof l).sumChi2ONdf
      = (l.map (trackChi2ONdf idxed)).sum := by
    rw [accumulateTracks, accum_sumChi2ONdf_aux]
    simp [initAccum]
  exact ⟨h, by rw [averageChi2ONdfOf, h]⟩

theorem c2state_chi2 :
    (trackAlignmentState [c2state] (fun _ _ => 0) (fun _ => 0)
      [(0, 0)]).chi2 = 4 := by
  norm_num [trackAlignmentState, visitAll, visitStep, c2state, fillStep,
    fillCovRow, getTrackState, setFirst, DynMatrix.zero, DynVector.zero,
    DynMatrix.setBlock, DynVector.setSegment, DynMatrix.inv,
    DynMatrix.mulVec, DynVector.dot, detD, adjD, updRowD,
    eBoundParametersSize, eAlignmentParametersSize,
    Finset.sum_range_succ, List.lookup, List.find?]

theorem c2state_dim :
    (trackAlignmentState [c2state] (fun _ _ => 0) (fun _ => 0)
      [(0, 0)]).measurementDim = 1 := by decide

theorem c2state_dof :
    (trackAlignmentState [c2state] (fun _ _ => 0) (fun _ => 0)
      [(0, 0)]).alignmentDof = 6 := by decide

theorem c2fit_eval :
    evaluateTrackAlignmentState (some c2fit) [(0, 0)]
      = .ok (trackAlignmentState [c2state] (fun _ _ => 0) (fun _ => 0)
        [(0, 0)]) := by
  simp only [evaluateTrackAlignmentState, c2fit]
  rw [if_neg (by rw [c2state_dof]; decide)]

/-- C2 counterexample: with one failed track and one contributing track
of `chi2/ndf = 4`, the code reports `4 / 2 = 2` (`numTracks` counts the
failed track), while the claimed mean over contributing tracks is
`4 / 1 = 4`. -/
theorem claim2_counterexample :
    averageChi2ONdfOf (accumulateTracks [(0, 0)] 6 [none, some c2fit])
      ([none, some c2fit] : List (Option FitOutput)).length = 2
    ∧ specAverageChi2ONdf [(0, 0)] [none, some c2fit] = 4
    ∧ averageChi2ONdfOf (accumulateTracks [(0, 0)] 6 [none, some c2fit])
        ([none, some c2fit] : List (Option FitOutput)).length
      ≠ specAverageChi2ONdf [(0, 0)] [none, some c2fit] := by
  have hnone : trackChi2ONdf [(0, 0)] none = 0 := rfl
  have hgood : trackChi2ONdf [(0, 0)] (some c2fit) = 4 := by
    simp only [trackChi2ONdf, c2fit_eval]
    rw [c2state_chi2, c2state_dim]
    norm_num
  have hsum : (accumulateTracks [(0, 0)] 6
      [none, some c2fit]).sumChi2ONdf = 4 := by
    rw [accumulateTracks, accum_sumChi2ONdf_aux]
    simp only [initAccum, List.map_cons, List.map_nil, List.sum_cons,
      List.sum_nil, hnone, hgood]
    norm_num
  have h1 : averageChi2ONdfOf (accumulateTracks [(0, 0)] 6
      [none, some c2fit])
      ([none, some c2fit] : List (Option FitOutput)).length = 2 := by
    rw [averageChi2ONdfOf, hsum]
    norm_num
  have h2 : specAverageChi2ONdf [(0, 0)] [none, some c2fit] = 4 := by
    have he : evaluateTrackAlignmentState none
        ([(0, 0)] : List (ℕ × ℕ)) = .error .fitFailure := rfl
    simp only [specAverageChi2ONdf, List.filterMap_cons, he, c2fit_eval]
    rw [c2state_chi2, c2state_dim]
    norm_num
  exact ⟨h1, h2, by rw [h1, h2]; norm_num⟩

theorem dynInv_entry_fin (n : ℕ) (H : DynMatrix) (hr : H.rows = n)
    (t s : Fin n) :
    H.inv.entry t.val s.val
      = ((toFinM n H.entry).det)⁻¹ * (toFinM n H.entry).adjugate t s := by
  simp only [DynMatrix.inv, hr]
  rw [if_pos ⟨t.isLt, s.isLt⟩, one_div, adjD_eq, detD_eq]

theorem dynInv_mulVec_fin (n : ℕ) (H : DynMatrix) (g : DynVector)
    (hr : H.rows = n) (hc : H.cols = n) (t : Fin n) :
    (H.inv.mulVec g).entry t.val
      = ((toFinM n H.entry).det)⁻¹ *
        ((toFinM n H.entry).adjugate.mulVec
          (fun s : Fin n => g.entry s.val)) t := by
  show (∑ s in Finset.range H.inv.cols,
      H.inv.entry t.val s * g.entry s) = _
  have hcols : H.inv.cols = n := hc
  rw [hcols, ← Fin.sum_univ_eq_sum_range
    (fun s => H.inv.entry t.val s * g.entry s)]
  simp only [Matrix.mulVec, Matrix.dotProduct]
  rw [Finset.mul_sum]
  refine Finset.sum_congr rfl fun s _ => ?_
  rw [dynInv_entry_fin n H hr t s]
  ring

/-- C6.  Given the accumulated gradient `g` and second-derivative matrix
`H` of one iteration, with `H` invertible, the solved delta satisfies
the normal equations `H · Δ = −g`; the alignment covariance is twice the
inverse of `H` (its product with `H` is `2 · Identity`); and
`deltaChi2 = ½ · gᵗ · Δ`. -/
theorem claim6_normal_equations (n : ℕ) (H : DynMatrix) (g : DynVector)
    (hr : H.rows = n) (hc : H.cols = n) (hdet : detD n H.entry ≠ 0) :
    (∀ i, i < n →
      (H.mulVec (solveDelta H g)).entry i = -(g.entry i))
    ∧ (∀ i j, i < n → j < n →
      ((covarianceOf H).mul H).entry i j = if i = j then 2 else 0)
    ∧ deltaChi2Of H g = (1/2 : ℚ) * g.dot (solveDelta H g) := by
  have hdet2 : (toFinM n H.entry).det ≠ 0 := by
    rw [← detD_eq]; exact hdet
  have hpos : ∀ (i : ℕ), i < n →
      (H.mulVec (H.inv.mulVec g)).entry i = g.entry i := by
    intro i hi
    show (∑ t in Finset.range H.cols,
        H.entry i t * (H.inv.mulVec g).entry t) = _
    rw [hc, ← Fin.sum_univ_eq_sum_range
      (fun t => H.entry i t * (H.inv.mulVec g).entry t)]
    have hterm : ∀ t : Fin n,
        H.entry i t.val * (H.inv.mulVec g).entry t.val
        = toFinM n H.entry ⟨i, hi⟩ t *
          (((toFinM n H.entry).det)⁻¹ •
            ((toFinM n H.entry).adjugate.mulVec
              (fun s : Fin n => g.entry s.val))) t := by
      intro t
      rw [dynInv_mulVec_fin n H g hr hc t]
      simp only [toFinM, Matrix.of_apply, Pi.smul_apply, smul_eq_mul]
    rw [Finset.sum_congr rfl (fun t _ => hterm t)]
    have hsum : (∑ t : Fin n, toFinM n H.entry ⟨i, hi⟩ t *
        (((toFinM n H.entry).det)⁻¹ •
          ((toFinM n H.entry).adjugate.mulVec
            (fun s : Fin n => g.entry s.val))) t)
        = ((toFinM n H.entry).mulVec
          (((toFinM n H.entry).det)⁻¹ •
            ((toFinM n H.entry).adjugate.mulVec
              (fun s : Fin n => g.entry s.val)))) ⟨i, hi⟩ := by
      simp only [Matrix.mulVec, Matrix.dotProduct, Pi.smul_apply,
        smul_eq_mul]
    rw [hsum, Matrix.mulVec_smul, Matrix.mulVec_mulVec,
      Matrix.mul_adjugate, Matrix.smul_mulVec_assoc, Matrix.one_mulVec,
      smul_smul, inv_mul_cancel₀ hdet2, one_smul]
  refine ⟨?_, ?_, rfl⟩
  · intro i hi
    have hneg : (H.mulVec ((H.inv.mulVec g).neg)).entry i
        = -((H.mulVec (H.inv.mulVec g)).entry i) := by
      simp only [DynMatrix.mulVec, DynVector.neg, mul_neg]
      exact Finset.sum_neg_distrib
    simp only [solveDelta]
    rw [hneg, hpos i hi]
  · intro i j hi hj
    show (∑ t in Finset.range (DynMatrix.smul 2 H.inv).cols,
        (DynMatrix.smul 2 H.inv).entry i t * H.entry t j) = _
    have hcols : (DynMatrix.smul 2 H.inv).cols = n := hc
    rw [hcols, ← Fin.sum_univ_eq_sum_range
      (fun t => (DynMatrix.smul 2 H.inv).entry i t * H.entry t j)]
    have e1 : (∑ t : Fin n,
        (DynMatrix.smul 2 H.inv).entry i t.val * H.entry t.val j)
        = 2 * ((toFinM n H.entry).det)⁻¹ *
          ((toFinM n H.entry).adjugate * (toFinM n H.entry))
            ⟨i, hi⟩ ⟨j, hj⟩ := by
      rw [Matrix.mul_apply, Finset.mul_sum]
      refine Finset.sum_congr rfl fun t _ => ?_
      show 2 * H.inv.entry i t.val * H.entry t.val j = _
      rw [dynInv_entry_fin n H hr ⟨i, hi⟩ t]
      simp only [toFinM, Matrix.of_apply]
      ring
    rw [e1, Matrix.adjugate_mul]
    simp only [Matrix.smul_apply, Matrix.one_apply, smul_eq_mul]
    rcases eq_or_ne i j with hij | hij
    · subst hij
      rw [if_pos rfl, if_pos rfl, mul_one, mul_assoc,
        inv_mul_cancel₀ hdet2, mul_one]
    · rw [if_neg (fun hh => hij (congrArg Fin.val hh)), if_neg hij,
        mul_zero, mul_zero]

/-- C6 witness: the normal equations evaluated for the concrete
one-dimensional system `H = [[2]]`, `g = [4]`, whose solution is
`delta = [-2]`. -/
theorem claim6_witness :
    ((DynMatrix.mk 1 1 (fun i j => if i = 0 ∧ j = 0 then 2 else 0)).rows
        = 1)
    ∧ detD 1 (DynMatrix.mk 1 1
        (fun i j => if i = 0 ∧ j = 0 then 2 else 0)).entry ≠ 0
    ∧ ((DynMatrix.mk 1 1 (fun i j => if i = 0 ∧ j = 0 then 2 else 0)).mulVec
        (solveDelta
          (DynMatrix.mk 1 1 (fun i j => if i = 0 ∧ j = 0 then 2 else 0))
          (DynVector.mk 1 (fun i => if i = 0 then 4 else 0)))).entry 0
      = -((DynVector.mk 1 (fun i => if i = 0 then 4 else 0)).entry 0) :=
  ⟨rfl, by norm_num [detD, Finset.sum_range_succ],
    (claim6_normal_equations 1
      (DynMatrix.mk 1 1 (fun i j => if i = 0 ∧ j = 0 then 2 else 0))
      (DynVector.mk 1 (fun i => if i = 0 then 4 else 0)) rfl rfl
      (by norm_num [detD, Finset.sum_range_succ])).1 0 (by norm_num)⟩

end ActsAlign

